import Mathlib

/-!
Verification of the Flex review-aggregation backend (NestJS + Mongoose + cache-manager)
against its natural-language specification.

Shallow embedding conventions:
- Numbers are modelled as rationals; JavaScript Number.toFixed(2) is modelled as
  round-half-up to 2 decimals, MongoDB round is modelled as round-half-to-even
  to 2 decimals.  All values appearing in the claims are small rationals where the
  two IEEE-754 artefacts play no role.
- Dates are modelled as natural-number timestamps; parsing a date string is the
  identity embedding.  The current time is passed as an explicit parameter.
- The MongoDB document collection is a list of Review documents; updateOne and
  findByIdAndUpdate touch the first matching document, updateMany touches all.
- The cache is an association list from key strings to an opaque payload token;
  the claims only concern which keys are present.
-/

/- Rational arithmetic is kept kernel-evaluable so that concrete runs of the
embedded code can be settled by decide. -/
attribute [local semireducible] Rat.add Rat.mul Rat.inv Rat.sub Rat.ofScientific

/-- Floor of a rational, computed directly on the reduced fraction so that it
evaluates inside the kernel. -/
def ratFloor (q : ℚ) : ℤ := q.num.fdiv q.den

/-- JavaScript parseFloat(x.toFixed(2)): round half away from zero (half up for the
nonnegative ratings used here) to 2 decimal places. -/
def toFixed2 (q : ℚ) : ℚ := (ratFloor (q * 100 + 1 / 2) : ℚ) / 100

/-- Round to the nearest integer, ties to even (MongoDB round semantics). -/
def roundHalfEven (x : ℚ) : ℤ :=
  let f := ratFloor x
  let frac := x - f
  if frac < 1 / 2 then f
  else if 1 / 2 < frac then f + 1
  else if f % 2 = 0 then f else f + 1

/-- MongoDB aggregation round to 2 decimal places. -/
def mongoRound2 (q : ℚ) : ℚ := (roundHalfEven (q * 100) : ℚ) / 100

/-- Arithmetic mean of a list of rationals (0 for the empty list, which the code
paths below never hit on empty input unless stated). -/
def listAvg (l : List ℚ) : ℚ := l.sum / l.length

/-- Minimum of a list (0 for the empty list; used only on nonempty groups). -/
def listMin : List ℚ → ℚ
  | [] => 0
  | [q] => q
  | q :: rest => min q (listMin rest)

/-- Maximum of a list (0 for the empty list; used only on nonempty groups). -/
def listMax : List ℚ → ℚ
  | [] => 0
  | [q] => q
  | q :: rest => max q (listMax rest)

/-- Maximum of a list of naturals (latest timestamp of a group). -/
def listMaxNat : List Nat → Nat
  | [] => 0
  | [n] => n
  | n :: rest => max n (listMaxNat rest)

/-- First-occurrence deduplication (the distinct group keys of a Mongo group
stage, in first-appearance order; Mongo leaves group order unspecified and the
pipelines below always sort afterwards). -/
def dedupFirstAux [DecidableEq α] (seen : List α) : List α → List α
  | [] => []
  | k :: rest => if k ∈ seen then dedupFirstAux seen rest
                 else k :: dedupFirstAux (k :: seen) rest

def dedupFirst [DecidableEq α] (l : List α) : List α := dedupFirstAux [] l

/- ===================== Data model (entities/review.entity.ts) ===================== -/

/-- ReviewCategory subdocument: category name and 0-10 rating. -/
structure ReviewCategory where
  category : String
  rating : ℚ
deriving DecidableEq

/-- The canonical Review document (schema class Review).  The Mongo primary key
_id is called mongoId here.  averageCategoryRating is the stored computed field. -/
structure Review where
  mongoId : String
  hostawayId : Nat
  type : String
  status : String
  rating : Option ℚ
  publicReview : String
  privateReview : Option String
  reviewCategories : List ReviewCategory
  submittedAt : Nat
  guestName : String
  listingId : String
  listingName : String
  channel : String
  isApprovedForPublic : Bool
  approvedBy : Option String
  approvedAt : Option Nat
  managerNotes : Option String
  averageCategoryRating : ℚ
deriving DecidableEq

/- ===================== Normalizer (hostaway.service.ts) ===================== -/

/-- Raw Hostaway review record (interfaces in hostaway-response.interface.ts).
publicReview and privateReview are optional at the raw boundary; submittedAt is
a date value (see the date convention above). -/
structure HostawayReview where
  id : Nat
  type : String
  status : String
  rating : Option ℚ
  publicReview : Option String
  privateReview : Option String
  reviewCategory : List ReviewCategory
  submittedAt : Nat
  guestName : String
  listingName : String
  listingId : Option String
deriving DecidableEq

/-- The normalized review shape produced by the Normalizer. -/
structure NormalizedReview where
  hostawayId : Nat
  type : String
  status : String
  rating : Option ℚ
  publicReview : String
  privateReview : Option String
  reviewCategories : List ReviewCategory
  submittedAt : Nat
  guestName : String
  listingId : String
  listingName : String
  channel : String
  averageCategoryRating : ℚ
deriving DecidableEq

/-- HostawayService.calculateAverageRating: 0 on an empty or missing category
list, otherwise parseFloat((sum / length).toFixed(2)). -/
def calculateAverageRating (categories : List ReviewCategory) : ℚ :=
  if categories = [] then 0
  else toFixed2 ((categories.map (·.rating)).sum / categories.length)

/-- True for the characters kept by the regex class [a-z0-9\s-] after
lowercasing. -/
def isSlugKeep (c : Char) : Bool :=
  (Char.toLower c).isLower && c.isAlpha || c.isDigit || c = ' ' || c = '\t'
  || c = '\n' || c = '-'

/-- Collapse runs of whitespace into single hyphens (the replace of the
whitespace-run regex by a hyphen). -/
def hyphenateSpaces : List Char → List Char
  | [] => []
  | c :: rest =>
    if c = ' ' || c = '\t' || c = '\n' then
      match hyphenateSpaces rest with
      | '-' :: out => '-' :: out
      | out => '-' :: out
    else c :: hyphenateSpaces rest

/-- HostawayService.generateListingId: lowercase, strip characters outside
[a-z0-9\s-], turn whitespace runs into hyphens, truncate to 50 characters. -/
def generateListingId (listingName : String) : String :=
  let lowered := listingName.data.map Char.toLower
  let stripped := lowered.filter isSlugKeep
  String.mk ((hyphenateSpaces stripped).take 50)

/-- HostawayService.normalizeReview.  Faithful to JavaScript truthiness:
publicReview falls back to the empty string, a missing listingId (undefined or
empty string) falls back to the generated slug. -/
def normalizeReview (review : HostawayReview) : NormalizedReview :=
  let avgRating := calculateAverageRating review.reviewCategory
  let listingId := match review.listingId with
    | some l => if l = "" then generateListingId review.listingName else l
    | none => generateListingId review.listingName
  { hostawayId := review.id
    type := review.type
    status := review.status
    rating := review.rating
    publicReview := match review.publicReview with
      | some s => s
      | none => ""
    privateReview := match review.privateReview with
      | some s => if s = "" then none else some s
      | none => none
    reviewCategories := review.reviewCategory.map (fun cat => ⟨cat.category, cat.rating⟩)
    submittedAt := review.submittedAt
    guestName := review.guestName
    listingId := listingId
    listingName := review.listingName
    channel := "hostaway"
    averageCategoryRating := avgRating }

/-- HostawayService.normalizeReviews: elementwise normalization. -/
def normalizeReviews (hostawayReviews : List HostawayReview) : List NormalizedReview :=
  hostawayReviews.map normalizeReview


/- ===================== Repository layer (reviews.repository.ts) ===================== -/

/-- A MongoDB $set document for the update paths used by the service: each field
is absent (do not touch) or carries the value to store (itself possibly null). -/
structure UpdateData where
  isApprovedForPublic : Option Bool := none
  approvedBy : Option (Option String) := none
  approvedAt : Option (Option Nat) := none
  managerNotes : Option (Option String) := none
  reviewCategories : Option (List ReviewCategory) := none
  averageCategoryRating : Option ℚ := none
deriving DecidableEq

/-- Apply a $set document to a stored review.  findByIdAndUpdate and updateMany
write fields directly; no Mongoose save middleware runs on this path. -/
def applySet (r : Review) (u : UpdateData) : Review :=
  { r with
    isApprovedForPublic := u.isApprovedForPublic.getD r.isApprovedForPublic
    approvedBy := u.approvedBy.getD r.approvedBy
    approvedAt := u.approvedAt.getD r.approvedAt
    managerNotes := u.managerNotes.getD r.managerNotes
    reviewCategories := u.reviewCategories.getD r.reviewCategories
    averageCategoryRating := u.averageCategoryRating.getD r.averageCategoryRating }

/-- Rewrite the first document matching the predicate (updateOne and
findByIdAndUpdate touch a single document; _id is unique in MongoDB). -/
def replaceFirstBy (p : Review → Bool) (g : Review → Review) : List Review → List Review
  | [] => []
  | r :: rest => if p r then g r :: rest else r :: replaceFirstBy p g rest

/-- Remove the first document matching the predicate (findByIdAndDelete). -/
def removeFirstBy (p : Review → Bool) : List Review → List Review
  | [] => []
  | r :: rest => if p r then rest else r :: removeFirstBy p rest

/-- The ReviewSchema pre-save hook: when the category list is nonempty, store
the exact mean of the category ratings (no rounding in the hook); an empty list
leaves the field untouched.  It runs on document save only. -/
def preSave (r : Review) : Review :=
  if r.reviewCategories ≠ [] then
    { r with averageCategoryRating := listAvg (r.reviewCategories.map (·.rating)) }
  else r

/-- ReviewsRepository.create: new document save, which runs the pre-save hook. -/
def repoCreate (store : List Review) (r : Review) : List Review :=
  store ++ [preSave r]

/-- ReviewsRepository.update: findByIdAndUpdate with a $set document; returns
the updated document.  The pre-save hook does NOT run here. -/
def repoUpdate (store : List Review) (id : String) (u : UpdateData) : List Review :=
  replaceFirstBy (fun r => r.mongoId == id) (fun r => applySet r u) store

/-- The $set document written by ReviewsRepository.bulkApprove. -/
def bulkApproveSet (approvedBy : String) (now : Nat) (r : Review) : Review :=
  { r with isApprovedForPublic := true, approvedBy := some approvedBy, approvedAt := some now }

/-- ReviewsRepository.bulkApprove: updateMany over the given ids; returns the
new store and modifiedCount.  MongoDB counts a document as modified exactly when
the $set actually changed its stored representation. -/
def repoBulkApprove (store : List Review) (reviewIds : List String) (approvedBy : String)
    (now : Nat) : List Review × Nat :=
  ((store.map fun r =>
      if reviewIds.contains r.mongoId then bulkApproveSet approvedBy now r else r),
   (store.filter fun r =>
      reviewIds.contains r.mongoId && bulkApproveSet approvedBy now r != r).length)

/-- $set of a whole normalized review onto an existing document (the
update-if-exists arm of bulkUpsert); manager fields are untouched. -/
def setFromNormalized (r : Review) (nr : NormalizedReview) : Review :=
  { r with
    hostawayId := nr.hostawayId, type := nr.type, status := nr.status
    rating := nr.rating, publicReview := nr.publicReview
    privateReview := nr.privateReview, reviewCategories := nr.reviewCategories
    submittedAt := nr.submittedAt, guestName := nr.guestName
    listingId := nr.listingId, listingName := nr.listingName
    channel := nr.channel, averageCategoryRating := nr.averageCategoryRating }

/-- The document inserted by the upsert arm of bulkUpsert: normalized fields
plus the schema defaults for the manager fields.  The Mongo-generated object id
is modelled deterministically from the external id (its value is irrelevant to
the claims). -/
def insertFromNormalized (nr : NormalizedReview) : Review :=
  { mongoId := "doc-" ++ toString nr.hostawayId
    hostawayId := nr.hostawayId, type := nr.type, status := nr.status
    rating := nr.rating, publicReview := nr.publicReview
    privateReview := nr.privateReview, reviewCategories := nr.reviewCategories
    submittedAt := nr.submittedAt, guestName := nr.guestName
    listingId := nr.listingId, listingName := nr.listingName
    channel := nr.channel, isApprovedForPublic := false
    approvedBy := none, approvedAt := none, managerNotes := none
    averageCategoryRating := nr.averageCategoryRating }

/-- ReviewsRepository.bulkUpsert: per record, update the document with the same
hostawayId if one exists, else insert; returns (store, upsertedCount,
modifiedCount).  bulkWrite runs no save middleware. -/
def bulkUpsert (store : List Review) : List NormalizedReview → List Review × Nat × Nat
  | [] => (store, 0, 0)
  | nr :: rest =>
    match store.find? (fun r => r.hostawayId == nr.hostawayId) with
    | some r0 =>
      let store1 := replaceFirstBy (fun r => r.hostawayId == nr.hostawayId)
        (fun r => setFromNormalized r nr) store
      let out := bulkUpsert store1 rest
      (out.1, out.2.1, out.2.2 + (if setFromNormalized r0 nr != r0 then 1 else 0))
    | none =>
      let out := bulkUpsert (store ++ [insertFromNormalized nr]) rest
      (out.1, out.2.1 + 1, out.2.2)

/- ===================== Filtered listing (findWithFilters) ===================== -/

/-- FilterReviewDto.  page defaults to 1, limit to 20, sortBy to submittedAt,
sortOrder to desc (the destructuring defaults in findWithFilters). -/
structure FilterReviewDto where
  page : Option Nat := none
  limit : Option Nat := none
  sortBy : Option String := none
  sortOrder : Option String := none
  listingId : Option String := none
  channel : Option String := none
  status : Option String := none
  minRating : Option ℚ := none
  isApprovedForPublic : Option Bool := none
  startDate : Option Nat := none
  endDate : Option Nat := none
  guestName : Option String := none
deriving DecidableEq

/-- Whether the second list starts with the first. -/
def startsWithList : List Char → List Char → Bool
  | [], _ => true
  | _ :: _, [] => false
  | p :: ps, c :: cs => p == c && startsWithList ps cs

/-- Whether the first list occurs contiguously inside the second. -/
def containsSub (pat : List Char) : List Char → Bool
  | [] => pat.isEmpty
  | c :: cs => startsWithList pat (c :: cs) || containsSub pat cs

/-- Case-insensitive substring test (the case-insensitive regex match on
guestName; regex metacharacters are out of scope, the pattern is a literal). -/
def isSubstrCI (pat s : String) : Bool :=
  containsSub (pat.data.map Char.toLower) (s.data.map Char.toLower)

/-- ReviewsRepository.buildFilterQuery as a predicate on documents.  String
filters follow JavaScript truthiness (an empty string disables the filter);
minRating and isApprovedForPublic are checked against undefined only. -/
def matchesFilter (filters : FilterReviewDto) (r : Review) : Bool :=
  (match filters.listingId with
   | some l => if l = "" then true else r.listingId == l
   | none => true) &&
  (match filters.channel with
   | some c => if c = "" then true else r.channel == c
   | none => true) &&
  (match filters.status with
   | some s => if s = "" then true else r.status == s
   | none => true) &&
  (match filters.minRating with
   | some m => decide (m ≤ r.averageCategoryRating)
   | none => true) &&
  (match filters.isApprovedForPublic with
   | some b => r.isApprovedForPublic == b
   | none => true) &&
  (match filters.startDate with
   | some s => decide (s ≤ r.submittedAt)
   | none => true) &&
  (match filters.endDate with
   | some e => decide (r.submittedAt ≤ e)
   | none => true) &&
  (match filters.guestName with
   | some g => if g = "" then true else isSubstrCI g r.guestName
   | none => true)

/-- Sort key of a document for the three documented sort fields.  A null rating
sorts below all numbers, as null does in MongoDB ascending order; any other
sortBy value refers to no schema field and is modelled as the default
submittedAt key. -/
def sortValNum (sortBy : String) (r : Review) : ℚ :=
  if sortBy = "rating" then
    match r.rating with
    | some q => q
    | none => -1
  else if sortBy = "averageCategoryRating" then r.averageCategoryRating
  else (r.submittedAt : ℚ)

/-- The document order requested from MongoDB by findWithFilters. -/
def reviewLe (sortBy sortOrder : String) (a b : Review) : Bool :=
  if sortOrder = "asc" then decide (sortValNum sortBy a ≤ sortValNum sortBy b)
  else decide (sortValNum sortBy b ≤ sortValNum sortBy a)

structure Pagination where
  page : Nat
  limit : Nat
  total : Nat
  totalPages : Nat
  hasNextPage : Bool
  hasPrevPage : Bool
deriving DecidableEq

structure FindResult where
  data : List Review
  pagination : Pagination
deriving DecidableEq

/-- ReviewsRepository.findWithFilters: filter, sort, skip/limit, and the
pagination block computed from the total matching count. -/
def findWithFilters (store : List Review) (filters : FilterReviewDto) : FindResult :=
  let page := filters.page.getD 1
  let limit := filters.limit.getD 20
  let sortBy := filters.sortBy.getD "submittedAt"
  let sortOrder := filters.sortOrder.getD "desc"
  let matched := store.filter (matchesFilter filters)
  let sorted := List.insertionSort (fun a b => reviewLe sortBy sortOrder a b = true) matched
  let total := matched.length
  let totalPages := (total + limit - 1) / limit
  { data := (sorted.drop ((page - 1) * limit)).take limit
    pagination :=
      { page := page, limit := limit, total := total, totalPages := totalPages
        hasNextPage := decide (page < totalPages)
        hasPrevPage := decide (1 < page) } }

/- ===================== Cache and service state (reviews.service.ts) ===================== -/

/-- The cache is an association list from keys to an opaque payload token (the
cached payloads themselves play no role in the claims). -/
def Cache := List (String × Nat)
deriving DecidableEq

/-- cacheManager.del of one exact key.  cache-manager has no pattern deletion:
a key containing a star is an ordinary literal key. -/
def cacheDel (c : Cache) (key : String) : Cache :=
  c.filter (fun kv => kv.1 != key)

/-- cacheManager.get. -/
def cacheGet (c : Cache) (key : String) : Option Nat :=
  (c.find? (fun kv => kv.1 == key)).map (·.2)

/-- cacheManager.set (replaces any entry under the same key). -/
def cacheSet (c : Cache) (key : String) (v : Nat) : Cache :=
  (key, v) :: c.filter (fun kv => kv.1 != key)

/-- The three named cache keys of ReviewsService.CACHE_KEYS. -/
def statisticsCacheKey : String := "reviews:statistics"
def approvedCacheKeyBase : String := "reviews:approved"
def trendCacheKeyBase : String := "reviews:trend"

/-- The parameterized key written by getApprovedReviews (JavaScript truthiness:
an empty or missing listingId becomes the literal all). -/
def approvedCacheKey (listingId : Option String) (limit : Nat) : String :=
  approvedCacheKeyBase ++ ":" ++
    (match listingId with
     | some l => if l = "" then "all" else l
     | none => "all") ++ ":" ++ toString limit

/-- The parameterized key written by getReviewsTrend. -/
def trendCacheKey (days : Nat) : String :=
  trendCacheKeyBase ++ ":" ++ toString days

/-- ReviewsService.invalidateCache: deletes the three named keys, then the two
literal star keys (the attempted pattern deletes). -/
def invalidateCache (c : Cache) : Cache :=
  cacheDel (cacheDel (cacheDel (cacheDel (cacheDel c statisticsCacheKey)
    approvedCacheKeyBase) trendCacheKeyBase)
    (approvedCacheKeyBase ++ ":*")) (trendCacheKeyBase ++ ":*")

/-- The five literal keys removed by invalidateCache. -/
def invalidatedKeys : List String :=
  [statisticsCacheKey, approvedCacheKeyBase, trendCacheKeyBase,
   approvedCacheKeyBase ++ ":*", trendCacheKeyBase ++ ":*"]

/-- The keys present in a cache. -/
def cacheKeys (c : Cache) : List String := c.map (·.1)

/-- The document store plus the cache. -/
structure AppState where
  store : List Review
  cache : Cache
deriving DecidableEq

/-- The 4xx error kinds thrown by the service. -/
inductive ServiceError where
  | notFound (msg : String)
  | badRequest (msg : String)
deriving DecidableEq

/-- CreateReviewDto (validated request body for POST /reviews). -/
structure CreateReviewDto where
  hostawayId : Nat
  type : String
  status : String
  rating : Option ℚ := none
  publicReview : String
  privateReview : Option String := none
  reviewCategories : List ReviewCategory
  submittedAt : Nat
  guestName : String
  listingId : String
  listingName : String
  channel : Option String := none
deriving DecidableEq

/-- UpdateReviewDto (PATCH body). -/
structure UpdateReviewDto where
  isApprovedForPublic : Option Bool := none
  managerNotes : Option String := none
  approvedBy : Option String := none
deriving DecidableEq

/-- ReviewsService.transformCreateDtoToEntity plus the schema defaults for the
manager fields; the Mongo object id of the new document is a parameter.  The
entity carries no averageCategoryRating yet (0 stands for the absent field; the
pre-save hook fills it for a nonempty category list). -/
def transformCreateDtoToEntity (dto : CreateReviewDto) (newId : String) : Review :=
  { mongoId := newId
    hostawayId := dto.hostawayId, type := dto.type, status := dto.status
    rating := dto.rating, publicReview := dto.publicReview
    privateReview := dto.privateReview, reviewCategories := dto.reviewCategories
    submittedAt := dto.submittedAt, guestName := dto.guestName
    listingId := dto.listingId, listingName := dto.listingName
    channel := (match dto.channel with
                | some c => if c = "" then "hostaway" else c
                | none => "hostaway")
    isApprovedForPublic := false, approvedBy := none, approvedAt := none
    managerNotes := none, averageCategoryRating := 0 }

/-- ReviewsService.create: duplicate check by hostawayId, save (pre-save hook
runs), cache invalidation. -/
def svcCreate (st : AppState) (dto : CreateReviewDto) (newId : String) :
    Except ServiceError (AppState × Review) :=
  match st.store.find? (fun r => r.hostawayId == dto.hostawayId) with
  | some _ => .error (.badRequest
      ("Review with Hostaway ID " ++ toString dto.hostawayId ++ " already exists"))
  | none =>
    let review := preSave (transformCreateDtoToEntity dto newId)
    .ok ({ store := st.store ++ [review], cache := invalidateCache st.cache }, review)

/-- ReviewsService.update: approval metadata handling plus findByIdAndUpdate.
The spread of the DTO writes every supplied DTO field into the $set document;
the approving branch (isApprovedForPublic true on an unapproved review) adds
approvedAt and keeps a supplied approvedBy; the unapproving branch nulls both. -/
def svcUpdate (st : AppState) (id : String) (dto : UpdateReviewDto) (now : Nat) :
    Except ServiceError AppState :=
  match st.store.find? (fun r => r.mongoId == id) with
  | none => .error (.notFound ("Review with ID " ++ id ++ " not found"))
  | some review =>
    let u : UpdateData :=
      { isApprovedForPublic := dto.isApprovedForPublic
        managerNotes := dto.managerNotes.map some
        approvedBy := dto.approvedBy.map some }
    let u :=
      if dto.isApprovedForPublic = some true ∧ review.isApprovedForPublic = false then
        { u with approvedAt := some (some now) }
      else u
    let u :=
      if dto.isApprovedForPublic = some false then
        { u with approvedAt := some none, approvedBy := some none }
      else u
    .ok { store := repoUpdate st.store id u, cache := invalidateCache st.cache }

/-- The test of the numeric-identifier regex (one or more digits, nothing else). -/
def isNumericString (s : String) : Bool :=
  !s.isEmpty && s.data.all (·.isDigit)

/-- parseInt on an all-digit string. -/
def natOfDigits (s : String) : Nat :=
  s.data.foldl (fun n c => n * 10 + (c.toNat - 48)) 0

/-- The JavaScript truthiness fallback written in approveReview: the supplied
approver name, or the literal admin when the name is missing OR empty (an
empty string is falsy). -/
def approverOrAdmin (approvedBy : Option String) : String :=
  match approvedBy with
  | some s => if s = "" then "admin" else s
  | none => "admin"

/-- ReviewsService.approveReview: resolve a numeric identifier by hostawayId,
any other by primary key; fail NotFound when nothing matches; then set the
approval metadata via findByIdAndUpdate and invalidate the cache. -/
def svcApproveReview (st : AppState) (id : String) (approvedBy : Option String)
    (now : Nat) : Except ServiceError (AppState × Review) :=
  let found : Option Review :=
    if isNumericString id then
      st.store.find? (fun r => r.hostawayId == natOfDigits id)
    else
      st.store.find? (fun r => r.mongoId == id)
  match found with
  | none =>
    if isNumericString id then
      .error (.notFound ("Review with Hostaway ID " ++ toString (natOfDigits id) ++
        " not found"))
    else
      .error (.notFound ("Review with ID " ++ id ++ " not found"))
  | some review =>
    let u : UpdateData :=
      { isApprovedForPublic := some true
        approvedBy := some (some (approverOrAdmin approvedBy))
        approvedAt := some (some now) }
    .ok ({ store := repoUpdate st.store review.mongoId u
           cache := invalidateCache st.cache },
         applySet review u)

/-- ReviewsService.bulkApprove: empty id list is a BadRequest; otherwise
updateMany plus cache invalidation; returns the modified count. -/
def svcBulkApprove (st : AppState) (reviewIds : List String)
    (approvedBy : Option String) (now : Nat) : Except ServiceError (AppState × Nat) :=
  if reviewIds = [] then .error (.badRequest "No review IDs provided")
  else
    let out := repoBulkApprove st.store reviewIds (approvedBy.getD "admin") now
    .ok ({ store := out.1, cache := invalidateCache st.cache }, out.2)

/-- ReviewsService.syncReviews: empty batch is a BadRequest; otherwise
bulkUpsert plus cache invalidation; returns (inserted, updated). -/
def svcSyncReviews (st : AppState) (normalizedReviews : List NormalizedReview) :
    Except ServiceError (AppState × Nat × Nat) :=
  if normalizedReviews = [] then .error (.badRequest "No reviews to sync")
  else
    let out := bulkUpsert st.store normalizedReviews
    .ok ({ store := out.1, cache := invalidateCache st.cache }, out.2)

/-- ReviewsService.remove: findByIdAndDelete, NotFound when nothing matched,
cache invalidation. -/
def svcRemove (st : AppState) (id : String) : Except ServiceError (AppState × Review) :=
  match st.store.find? (fun r => r.mongoId == id) with
  | none => .error (.notFound ("Review with ID " ++ id ++ " not found"))
  | some review =>
    .ok ({ store := removeFirstBy (fun r => r.mongoId == id) st.store
           cache := invalidateCache st.cache }, review)

/-- ReviewsService.getApprovedReviews, restricted to its cache effect: on a
miss the computed listing is stored under the parameterized key (payload
abstracted to a token). -/
def svcGetApprovedReviews (st : AppState) (listingId : Option String)
    (limit : Nat) : AppState :=
  match cacheGet st.cache (approvedCacheKey listingId limit) with
  | some _ => st
  | none => { st with cache := cacheSet st.cache (approvedCacheKey listingId limit) 0 }

/-- ReviewsService.getReviewsTrend, restricted to its cache effect. -/
def svcGetReviewsTrend (st : AppState) (days : Nat) : AppState :=
  match cacheGet st.cache (trendCacheKey days) with
  | some _ => st
  | none => { st with cache := cacheSet st.cache (trendCacheKey days) 0 }

/- ===================== Analytics engine (analytics.service.ts) ===================== -/

/-- AnalyticsFilterDto (dates as timestamps, see the date convention). -/
structure AnalyticsFilterDto where
  startDate : Option Nat := none
  endDate : Option Nat := none
  listingId : Option String := none
  channel : Option String := none
  days : Option Nat := none
deriving DecidableEq

/-- buildDateFilter as a predicate: the submittedAt range built from
startDate/endDate. -/
def matchesDateFilter (f : AnalyticsFilterDto) (r : Review) : Bool :=
  (match f.startDate with
   | some s => decide (s ≤ r.submittedAt)
   | none => true) &&
  (match f.endDate with
   | some e => decide (r.submittedAt ≤ e)
   | none => true)

/-- The match stage of getPropertyBreakdown: date range plus channel and
listingId equality (string truthiness as in the filter DTO). -/
def matchesAnalyticsFilter (f : AnalyticsFilterDto) (r : Review) : Bool :=
  matchesDateFilter f r &&
  (match f.channel with
   | some c => if c = "" then true else r.channel == c
   | none => true) &&
  (match f.listingId with
   | some l => if l = "" then true else r.listingId == l
   | none => true)

/-- A Mongo group stage: the distinct keys with the documents carrying each
key.  Every group is by construction nonempty. -/
def groupsBy {κ : Type} [DecidableEq κ] (key : Review → κ) (l : List Review) :
    List (κ × List Review) :=
  (dedupFirst (l.map key)).map (fun k => (k, l.filter (fun r => decide (key r = k))))

/-- Documents of a group that are approved for public display. -/
def approvedLen (g : List Review) : Nat :=
  (g.filter (·.isApprovedForPublic)).length

/-- One row of getChannelBreakdown. -/
structure ChannelEntry where
  channel : String
  count : Nat
  avgRating : ℚ
  approvedCount : Nat
  approvalRate : ℚ
deriving DecidableEq

def mkChannelEntry (c : String) (g : List Review) : ChannelEntry :=
  { channel := c
    count := g.length
    avgRating := mongoRound2 (listAvg (g.map (·.averageCategoryRating)))
    approvedCount := approvedLen g
    approvalRate := mongoRound2 ((approvedLen g : ℚ) / g.length * 100) }

/-- AnalyticsService.getChannelBreakdown: group by channel over the date-matched
documents, project the rounded averages and the approval rate, sort by count
descending. -/
def getChannelBreakdown (store : List Review) (f : AnalyticsFilterDto) :
    List ChannelEntry :=
  let matched := store.filter (matchesDateFilter f)
  List.insertionSort (fun a b => b.count ≤ a.count)
    ((groupsBy (·.channel) matched).map (fun kg => mkChannelEntry kg.1 kg.2))

/-- The overview row of AnalyticsService.getOverviewStats. -/
structure OverviewStats where
  totalReviews : Nat
  avgRating : ℚ
  approvedCount : Nat
  pendingCount : Nat
  uniquePropertiesCount : Nat
  approvalRate : ℚ
deriving DecidableEq

/-- The constant object returned when the aggregation yields no row. -/
def fallbackOverview : OverviewStats :=
  { totalReviews := 0, avgRating := 0, approvedCount := 0, pendingCount := 0
    uniquePropertiesCount := 0, approvalRate := 0 }

/-- AnalyticsService.getOverviewStats: a single group over the date-matched
documents; with no matching document the group stage emits nothing and the
fallback object is returned. -/
def getOverviewStats (store : List Review) (f : AnalyticsFilterDto) : OverviewStats :=
  let matched := store.filter (matchesDateFilter f)
  if matched.isEmpty then fallbackOverview
  else
    { totalReviews := matched.length
      avgRating := mongoRound2 (listAvg (matched.map (·.averageCategoryRating)))
      approvedCount := approvedLen matched
      pendingCount := matched.length - approvedLen matched
      uniquePropertiesCount := (dedupFirst (matched.map (·.listingId))).length
      approvalRate := mongoRound2 ((approvedLen matched : ℚ) / matched.length * 100) }

/-- One row of getPropertyBreakdown. -/
structure PropertyEntry where
  listingId : String
  listingName : String
  totalReviews : Nat
  approvedReviews : Nat
  pendingReviews : Nat
  avgRating : ℚ
  minRating : ℚ
  maxRating : ℚ
  approvalRate : ℚ
  latestReviewDate : Nat
  performance : String
deriving DecidableEq

/-- The project stage of getPropertyBreakdown on one group.  The performance
tier is computed from the raw group average (the project stage reads the group
field, not the rounded output field); the reported avgRating is rounded. -/
def mkPropertyEntry (k : String × String) (g : List Review) : PropertyEntry :=
  let raw := listAvg (g.map (·.averageCategoryRating))
  { listingId := k.1
    listingName := k.2
    totalReviews := g.length
    approvedReviews := approvedLen g
    pendingReviews := g.length - approvedLen g
    avgRating := mongoRound2 raw
    minRating := mongoRound2 (listMin (g.map (·.averageCategoryRating)))
    maxRating := mongoRound2 (listMax (g.map (·.averageCategoryRating)))
    approvalRate := mongoRound2 ((approvedLen g : ℚ) / g.length * 100)
    latestReviewDate := listMaxNat (g.map (·.submittedAt))
    performance :=
      if 8.5 ≤ raw then "excellent"
      else if 7 ≤ raw then "good"
      else if 5 ≤ raw then "fair"
      else "needs_improvement" }

/-- The sort order of getPropertyBreakdown: avgRating descending, then
totalReviews descending (on the projected, rounded avgRating). -/
def propertyGe (a b : PropertyEntry) : Prop :=
  b.avgRating < a.avgRating ∨
    (a.avgRating = b.avgRating ∧ b.totalReviews ≤ a.totalReviews)

instance : DecidableRel propertyGe := fun a b =>
  inferInstanceAs (Decidable (b.avgRating < a.avgRating ∨
    (a.avgRating = b.avgRating ∧ b.totalReviews ≤ a.totalReviews)))

instance : IsTotal PropertyEntry propertyGe where
  total a b := by
    rcases lt_trichotomy a.avgRating b.avgRating with h | h | h
    · exact Or.inr (Or.inl h)
    · rcases Nat.le_total b.totalReviews a.totalReviews with ht | ht
      · exact Or.inl (Or.inr ⟨h, ht⟩)
      · exact Or.inr (Or.inr ⟨h.symm, ht⟩)
    · exact Or.inl (Or.inl h)

instance : IsTrans PropertyEntry propertyGe where
  trans a b c hab hbc := by
    rcases hab with h1 | ⟨e1, t1⟩
    · rcases hbc with h2 | ⟨e2, _⟩
      · exact Or.inl (h2.trans h1)
      · exact Or.inl (e2 ▸ h1)
    · rcases hbc with h2 | ⟨e2, t2⟩
      · exact Or.inl (e1 ▸ h2)
      · exact Or.inr ⟨e1.trans e2, t2.trans t1⟩

/-- AnalyticsService.getPropertyBreakdown: match, group by
(listingId, listingName), project, sort. -/
def getPropertyBreakdown (store : List Review) (f : AnalyticsFilterDto) :
    List PropertyEntry :=
  let matched := store.filter (matchesAnalyticsFilter f)
  List.insertionSort propertyGe
    ((groupsBy (fun r => (r.listingId, r.listingName)) matched).map
      (fun kg => mkPropertyEntry kg.1 kg.2))

/- ===================== Statistics (ReviewsService.getStatistics) ===================== -/

/-- The overview row of the repository statistics facet (no rounding; the
service passes it through). -/
structure StatsOverview where
  totalReviews : Nat
  averageRating : ℚ
  approvedCount : Nat
  pendingCount : Nat
deriving DecidableEq

/-- One row of the byChannel facet after the service transform. -/
structure ServiceChannelEntry where
  channel : String
  count : Nat
  avgRating : ℚ
deriving DecidableEq

/-- One row of topProperties after the service transform. -/
structure TopPropertyEntry where
  listingId : String
  listingName : String
  reviewCount : Nat
  avgRating : ℚ
  approvedCount : Nat
  approvalRate : ℚ
deriving DecidableEq

structure Statistics where
  overview : StatsOverview
  byChannel : List ServiceChannelEntry
  topProperties : List TopPropertyEntry
  ratingDistribution : List (String × Nat)
deriving DecidableEq

/-- The $bucket facet: boundaries [0,2,4,6,8,10] with upper bounds exclusive,
out-of-range documents in the default bucket; only nonempty buckets are
emitted, the default bucket last. -/
def ratingDistribution (store : List Review) : List (String × Nat) :=
  let cnt := fun (lo hi : ℚ) => (store.filter (fun r =>
    decide (lo ≤ r.averageCategoryRating) && decide (r.averageCategoryRating < hi))).length
  let other := (store.filter (fun r =>
    decide (r.averageCategoryRating < 0) || decide (10 ≤ r.averageCategoryRating))).length
  ([("0", cnt 0 2), ("2", cnt 2 4), ("4", cnt 4 6), ("6", cnt 6 8),
    ("8", cnt 8 10)].filter (fun b => b.2 != 0)) ++
  (if other != 0 then [("Other", other)] else [])

/-- ReviewsRepository.getStatistics composed with the transform in
ReviewsService.getStatistics: raw overview (or zero fallback), byChannel with
toFixed2 averages, top 10 properties by count with toFixed2 averages and
approval rates. -/
def getStatisticsModel (store : List Review) : Statistics :=
  let overview : StatsOverview :=
    if store.isEmpty then { totalReviews := 0, averageRating := 0,
                            approvedCount := 0, pendingCount := 0 }
    else { totalReviews := store.length
           averageRating := listAvg (store.map (·.averageCategoryRating))
           approvedCount := approvedLen store
           pendingCount := store.length - approvedLen store }
  let byChannel := (groupsBy (·.channel) store).map (fun kg =>
    { channel := kg.1, count := kg.2.length
      avgRating := toFixed2 (listAvg (kg.2.map (·.averageCategoryRating)))
      : ServiceChannelEntry })
  let propGroups := List.insertionSort
    (fun a b : (String × String) × List Review => b.2.length ≤ a.2.length)
    (groupsBy (fun r => (r.listingId, r.listingName)) store)
  let top := (propGroups.take 10).map (fun kg =>
    { listingId := kg.1.1, listingName := kg.1.2
      reviewCount := kg.2.length
      avgRating := toFixed2 (listAvg (kg.2.map (·.averageCategoryRating)))
      approvedCount := approvedLen kg.2
      approvalRate := toFixed2 ((approvedLen kg.2 : ℚ) / kg.2.length * 100)
      : TopPropertyEntry })
  { overview := overview, byChannel := byChannel, topProperties := top
    ratingDistribution := ratingDistribution store }

/- ===================== Concrete data for witnesses and counterexamples ===================== -/

/-- Concrete raw record used by the C4 witness. -/
def c4raw : HostawayReview :=
  { id := 7453, type := "host-to-guest", status := "published", rating := none,
    publicReview := some "ok", privateReview := none,
    reviewCategory := [⟨"cleanliness", 10⟩, ⟨"communication", 8⟩],
    submittedAt := 100, guestName := "Shane", listingName := "A B",
    listingId := none }

/-- Concrete raw record used by the C9 witness. -/
def c9raw : HostawayReview :=
  { id := 1, type := "guest-to-host", status := "published", rating := some 9,
    publicReview := some "great", privateReview := none,
    reviewCategory := [⟨"cleanliness", 9⟩], submittedAt := 5,
    guestName := "Emma", listingName := "Flat 1", listingId := some "flat-1" }

/-- A baseline stored document; the fields irrelevant to each scenario keep
these values. -/
def baseReview : Review :=
  { mongoId := "a", hostawayId := 1001, type := "guest-to-host",
    status := "published", rating := none, publicReview := "ok",
    privateReview := none, reviewCategories := [⟨"cleanliness", 10⟩],
    submittedAt := 10, guestName := "Guest", listingId := "l1",
    listingName := "L1", channel := "hostaway", isApprovedForPublic := false,
    approvedBy := none, approvedAt := none, managerNotes := none,
    averageCategoryRating := 10 }

/-- C1 failing input: a stored review whose category list averages 10. -/
def c1review : Review := baseReview

/-- C1 failing input: the $set document of an update changing the categories. -/
def c1update : UpdateData := { reviewCategories := some [⟨"cleanliness", 4⟩] }

/-- Projections used to read an Except result in closed statements. -/
def bulkCount (x : Except ServiceError (AppState × Nat)) : Nat :=
  match x with
  | .ok p => p.2
  | .error _ => 0

def bulkState (x : Except ServiceError (AppState × Nat)) : AppState :=
  match x with
  | .ok p => p.1
  | .error _ => { store := [], cache := [] }

def updState (x : Except ServiceError AppState) : AppState :=
  match x with
  | .ok s => s
  | .error _ => { store := [], cache := [] }

def opState (x : Except ServiceError (AppState × Review)) : AppState :=
  match x with
  | .ok p => p.1
  | .error _ => { store := [], cache := [] }

def isOkReview (x : Except ServiceError (AppState × Review)) : Bool :=
  match x with
  | .ok _ => true
  | .error _ => false

/-- C2 scenario: two stored unapproved reviews. -/
def c2st0 : AppState :=
  { store := [baseReview, { baseReview with mongoId := "b", hostawayId := 1002 }]
    cache := [] }

/-- State after the first bulk approval of just the first id, at time 1. -/
def c2st1 : AppState := bulkState (svcBulkApprove c2st0 ["a"] none 1)

/-- C3 scenario: one stored unapproved review with absent approval metadata. -/
def c3st0 : AppState := { store := [baseReview], cache := [] }

/-- C3: the generic update that only sets the approval flag. -/
def c3dtoApprove : UpdateReviewDto := { isApprovedForPublic := some true }

/-- C3: a generic approving update carrying an approver name, for the witness. -/
def c3dtoApproveBob : UpdateReviewDto :=
  { isApprovedForPublic := some true, approvedBy := some "bob" }

def c3stAfter : AppState := updState (svcUpdate c3st0 "a" c3dtoApprove 5)

def c3stAfterBob : AppState := updState (svcUpdate c3st0 "a" c3dtoApproveBob 5)

/-- C5 scenario: a store with one review and an empty cache. -/
def c5st0 : AppState := { store := [baseReview], cache := [] }

/-- C5: the cache after a trend read has populated its parameterized key. -/
def c5st1 : AppState := svcGetReviewsTrend c5st0 30

/-- C5: the state after an approval (a mutating operation) on that state. -/
def c5st2 : AppState := opState (svcApproveReview c5st1 "a" none 7)

/-- C5 witness data: a cache holding a named key and a parameterized key. -/
def c5remSt : AppState :=
  { store := [baseReview]
    cache := [(trendCacheKey 30, 0), (statisticsCacheKey, 0)] }

def c5remAfter : AppState := opState (svcRemove c5remSt "a")

/-- C6 witness: two stored documents, page 1 with page size 1. -/
def c6store : List Review :=
  [baseReview, { baseReview with mongoId := "b", hostawayId := 1002, submittedAt := 20 }]

def c6filters : FilterReviewDto := { page := some 1, limit := some 1 }

/-- C7 witness: one stored document addressed by its external id. -/
def c7st : AppState := { store := [{ baseReview with mongoId := "m1", hostawayId := 7453 }], cache := [] }

/-- C8 counterexample: one listing whose three reviews average 2549/300, which
is below 8.5 but rounds to 8.5. -/
def c8store : List Review :=
  [{ baseReview with mongoId := "x1", hostawayId := 1, averageCategoryRating := 8.5 },
   { baseReview with mongoId := "x2", hostawayId := 2, averageCategoryRating := 8.5, submittedAt := 11 },
   { baseReview with mongoId := "x3", hostawayId := 3, averageCategoryRating := 8.49, submittedAt := 12 }]

/-- The single group of the C8 counterexample store. -/
def c8group : (String × String) × List Review := (("l1", "L1"), c8store)

/-- C10 witness store: one document. -/
def c10store : List Review := [baseReview]

/- ===================== Helper lemmas ===================== -/

/-- Strict comparison against a ceiling division (the hasNextPage arithmetic). -/
theorem lt_ceilDiv_iff (p t l : Nat) (hl : 1 ≤ l) :
    p < (t + l - 1) / l ↔ p * l < t := by
  rw [Nat.lt_iff_add_one_le, Nat.le_div_iff_mul_le hl]
  have h : (p + 1) * l = p * l + l := by ring
  rw [h]
  generalize p * l = A
  omega

/-- find? after rewriting the first matching element, when the rewrite
preserves the predicate. -/
theorem find?_replaceFirstBy (p : Review → Bool) (g : Review → Review)
    (l : List Review) (r : Review) (hfind : l.find? p = some r)
    (hpres : p (g r) = true) :
    (replaceFirstBy p g l).find? p = some (g r) := by
  induction l with
  | nil => simp at hfind
  | cons x xs ih =>
    by_cases hx : p x = true
    · rw [List.find?_cons_of_pos _ hx] at hfind
      injection hfind with hxr
      subst hxr
      unfold replaceFirstBy
      rw [if_pos hx]
      exact List.find?_cons_of_pos _ hpres
    · have hx' : p x = false := by
        cases h : p x
        · rfl
        · exact absurd h hx
      rw [List.find?_cons_of_neg _ (by simp [hx'])] at hfind
      unfold replaceFirstBy
      rw [if_neg (by simp [hx'])]
      rw [List.find?_cons_of_neg _ (by simp [hx'])]
      exact ih hfind

/-- The bulk-approval $set is a no-op on a document exactly when the three
written fields already hold the written values. -/
theorem bulkApproveSet_eq_self_iff (a : String) (t : Nat) (r : Review) :
    bulkApproveSet a t r = r ↔
      (r.isApprovedForPublic = true ∧ r.approvedBy = some a ∧ r.approvedAt = some t) := by
  cases r
  simp only [bulkApproveSet, Review.mk.injEq, true_and, and_true]
  constructor
  · rintro ⟨h1, h2, h3⟩
    exact ⟨h1.symm, h2.symm, h3.symm⟩
  · rintro ⟨h1, h2, h3⟩
    exact ⟨h1.symm, h2.symm, h3.symm⟩

/-- Boolean form of the previous lemma, in the shape used by updateMany's
modified count. -/
theorem bulkApproveSet_bne_eq (a : String) (t : Nat) (r : Review) :
    (bulkApproveSet a t r != r) =
      !(r.isApprovedForPublic == true && r.approvedBy == some a &&
        r.approvedAt == some t) := by
  rw [Bool.eq_iff_iff, bne_iff_ne, ne_eq, bulkApproveSet_eq_self_iff]
  rcases hb : r.isApprovedForPublic <;> simp [hb, and_assoc]
  tauto

/-- Keys remaining after deletion of one exact key. -/
theorem mem_cacheKeys_cacheDel (c : Cache) (key k : String) :
    k ∈ cacheKeys (cacheDel c key) ↔ (k ∈ cacheKeys c ∧ k ≠ key) := by
  unfold cacheKeys cacheDel
  simp only [List.mem_map, List.mem_filter, bne_iff_ne, ne_eq, decide_not,
    Bool.not_eq_eq_eq_not, Bool.not_true, decide_eq_false_iff_not]
  constructor
  · rintro ⟨kv, ⟨hmem, hf⟩, rfl⟩
    exact ⟨⟨kv, hmem, rfl⟩, hf⟩
  · rintro ⟨⟨kv, hmem, rfl⟩, hf⟩
    exact ⟨kv, ⟨hmem, hf⟩, rfl⟩

/-- invalidateCache removes exactly the five literal keys. -/
theorem mem_cacheKeys_invalidateCache (c : Cache) (k : String) :
    k ∈ cacheKeys (invalidateCache c) ↔ (k ∈ cacheKeys c ∧ k ∉ invalidatedKeys) := by
  unfold invalidateCache
  rw [mem_cacheKeys_cacheDel, mem_cacheKeys_cacheDel, mem_cacheKeys_cacheDel,
    mem_cacheKeys_cacheDel, mem_cacheKeys_cacheDel]
  simp [invalidatedKeys, and_assoc]

/-- Membership in the deduplicated list implies membership in the input. -/
theorem mem_dedupFirstAux [DecidableEq α] (seen l : List α) (x : α)
    (hx : x ∈ dedupFirstAux seen l) : x ∈ l := by
  induction l generalizing seen with
  | nil => simp [dedupFirstAux] at hx
  | cons k rest ih =>
    unfold dedupFirstAux at hx
    by_cases hk : k ∈ seen
    · rw [if_pos hk] at hx
      exact List.mem_cons_of_mem _ (ih _ hx)
    · rw [if_neg hk] at hx
      rcases List.mem_cons.mp hx with h | h
      · exact h ▸ List.mem_cons_self _ _
      · exact List.mem_cons_of_mem _ (ih _ h)

/-- Every group produced by a group stage holds at least one document. -/
theorem groupsBy_nonempty {κ : Type} [DecidableEq κ] (key : Review → κ)
    (l : List Review) (kg : κ × List Review) (h : kg ∈ groupsBy key l) :
    1 ≤ kg.2.length := by
  unfold groupsBy dedupFirst at h
  obtain ⟨k, hk, rfl⟩ := List.mem_map.mp h
  obtain ⟨r, hr, rfl⟩ := List.mem_map.mp (mem_dedupFirstAux _ _ _ hk)
  have hmem : r ∈ l.filter (fun x => decide (key x = key r)) :=
    List.mem_filter.mpr ⟨hr, by simp⟩
  exact List.length_pos.mpr (List.ne_nil_of_mem hmem)

/- ===================== Claim theorems ===================== -/

/-- C4: for every raw review record, normalize produces averageCategoryRating
equal to the mean of the category ratings rounded to 2 decimal places, and equal
to 0 when the category list is empty. -/
theorem C4_normalized_average (r : HostawayReview) :
    (r.reviewCategory = [] → (normalizeReview r).averageCategoryRating = 0) ∧
    (r.reviewCategory ≠ [] → (normalizeReview r).averageCategoryRating =
      toFixed2 ((r.reviewCategory.map (·.rating)).sum / r.reviewCategory.length)) := by
  constructor
  · intro h
    simp [normalizeReview, calculateAverageRating, h]
  · intro h
    simp [normalizeReview, calculateAverageRating, h]

theorem C4_witness :
    c4raw.reviewCategory ≠ [] ∧ (normalizeReview c4raw).averageCategoryRating = 9 := by
  refine ⟨by decide, ?_⟩
  have h := (C4_normalized_average c4raw).2 (by decide)
  rw [h]
  decide

/-- C9: normalizeReview is a pure deterministic function of its input: equal raw
records give byte-identical normalized output (in the embedding the function
performs no effects by construction, matching the source, which does no I/O). -/
theorem C9_normalize_deterministic (r₁ r₂ : HostawayReview) (h : r₁ = r₂) :
    normalizeReview r₁ = normalizeReview r₂ ∧
    normalizeReviews [r₁] = [normalizeReview r₂] := by
  subst h
  exact ⟨rfl, rfl⟩

theorem C9_witness :
    normalizeReview c9raw = normalizeReview c9raw ∧
    normalizeReviews [c9raw] = [normalizeReview c9raw] :=
  C9_normalize_deterministic c9raw c9raw rfl

/-- C1: the claim says averageCategoryRating is never stale and is recomputed
inside the entity on any update that changes reviewCategories.  The update path
goes through findByIdAndUpdate, which runs no save middleware: after the update
below the stored category list averages 4 while averageCategoryRating still
holds the old value 10.  This theorem evaluates the embedded update at the
failing input. -/
theorem C1_update_stale_average :
    (repoUpdate [c1review] "a" c1update).map
      (fun r => (r.reviewCategories.map (·.rating), r.averageCategoryRating)) =
      [([4], 10)] ∧
    listAvg ((c1update.reviewCategories.getD []).map (·.rating)) = 4 ∧
    (10 : ℚ) ≠ 4 := by
  decide

/-- C6: hasNextPage is reported exactly when page times limit is below the
total count of documents matching the filter, and hasPrevPage exactly when the
page number exceeds 1 (page and limit within their validated bounds). -/
theorem C6_pagination_flags (store : List Review) (filters : FilterReviewDto)
    (_hp : 1 ≤ filters.page.getD 1) (hl : 1 ≤ filters.limit.getD 20) :
    ((findWithFilters store filters).pagination.hasNextPage = true ↔
      (filters.page.getD 1) * (filters.limit.getD 20) <
        (store.filter (matchesFilter filters)).length) ∧
    ((findWithFilters store filters).pagination.hasPrevPage = true ↔
      1 < filters.page.getD 1) := by
  constructor
  · show decide (filters.page.getD 1 <
      ((store.filter (matchesFilter filters)).length + filters.limit.getD 20 - 1) /
        filters.limit.getD 20) = true ↔ _
    rw [decide_eq_true_iff]
    exact lt_ceilDiv_iff _ _ _ hl
  · show decide (1 < filters.page.getD 1) = true ↔ _
    rw [decide_eq_true_iff]

theorem C6_witness :
    (findWithFilters c6store c6filters).pagination.hasNextPage = true ∧
    (findWithFilters c6store c6filters).pagination.hasPrevPage = false := by
  have h := C6_pagination_flags c6store c6filters (by decide) (by decide)
  constructor
  · exact h.1.mpr (by decide)
  · cases hc : (findWithFilters c6store c6filters).pagination.hasPrevPage
    · rfl
    · exact absurd (h.2.mp hc) (by decide)

/-- C7: approve resolves an all-digit identifier through the external
(Hostaway) id and any other identifier through the primary key, fails NotFound
when nothing matches, and otherwise returns the resolved review with the
approval metadata set (the supplied approver, with a missing or empty name
falling back to admin, and approvedAt the current time). -/
theorem C7_approve_resolution (st : AppState) (id : String) (ab : Option String)
    (now : Nat) :
    (isNumericString id = true →
      (st.store.find? (fun r => r.hostawayId == natOfDigits id) = none →
        ∃ msg, svcApproveReview st id ab now = .error (.notFound msg)) ∧
      (∀ r, st.store.find? (fun r => r.hostawayId == natOfDigits id) = some r →
        ∃ st' r', svcApproveReview st id ab now = .ok (st', r') ∧
          r'.mongoId = r.mongoId ∧ r'.isApprovedForPublic = true ∧
          r'.approvedBy = some (approverOrAdmin ab) ∧ r'.approvedAt = some now)) ∧
    (isNumericString id = false →
      (st.store.find? (fun r => r.mongoId == id) = none →
        ∃ msg, svcApproveReview st id ab now = .error (.notFound msg)) ∧
      (∀ r, st.store.find? (fun r => r.mongoId == id) = some r →
        ∃ st' r', svcApproveReview st id ab now = .ok (st', r') ∧
          r'.mongoId = r.mongoId ∧ r'.isApprovedForPublic = true ∧
          r'.approvedBy = some (approverOrAdmin ab) ∧ r'.approvedAt = some now)) := by
  constructor
  · intro hnum
    constructor
    · intro hfind
      refine ⟨"Review with Hostaway ID " ++ toString (natOfDigits id) ++ " not found", ?_⟩
      simp [svcApproveReview, hnum, hfind]
    · intro r hfind
      refine ⟨⟨repoUpdate st.store r.mongoId
          ⟨some true, some (some (approverOrAdmin ab)), some (some now), none, none, none⟩,
          invalidateCache st.cache⟩,
        applySet r
          ⟨some true, some (some (approverOrAdmin ab)), some (some now), none, none, none⟩,
        ?_, ?_, ?_, ?_, ?_⟩
      · simp [svcApproveReview, hnum, hfind]
      all_goals simp [applySet]
  · intro hnum
    constructor
    · intro hfind
      refine ⟨"Review with ID " ++ id ++ " not found", ?_⟩
      simp [svcApproveReview, hnum, hfind]
    · intro r hfind
      refine ⟨⟨repoUpdate st.store r.mongoId
          ⟨some true, some (some (approverOrAdmin ab)), some (some now), none, none, none⟩,
          invalidateCache st.cache⟩,
        applySet r
          ⟨some true, some (some (approverOrAdmin ab)), some (some now), none, none, none⟩,
        ?_, ?_, ?_, ?_, ?_⟩
      · simp [svcApproveReview, hnum, hfind]
      all_goals simp [applySet]

theorem C7_witness :
    (svcApproveReview c7st "7453" none 5).toOption.map
      (fun p => (p.2.isApprovedForPublic, p.2.approvedBy, p.2.approvedAt)) =
      some (true, some "admin", some 5) ∧
    (svcApproveReview c7st "7453" (some "") 6).toOption.map
      (fun p => p.2.approvedBy) = some (some "admin") := by
  constructor
  · obtain ⟨st', r', heq, hid, happ, hby, hat⟩ :=
      ((C7_approve_resolution c7st "7453" none 5).1 (by decide)).2
        { baseReview with mongoId := "m1", hostawayId := 7453 } (by decide)
    rw [heq]
    simp [Except.toOption, happ, hby, hat, approverOrAdmin]
  · obtain ⟨st', r', heq, hid, happ, hby, hat⟩ :=
      ((C7_approve_resolution c7st "7453" (some "") 6).1 (by decide)).2
        { baseReview with mongoId := "m1", hostawayId := 7453 } (by decide)
    rw [heq]
    simp [Except.toOption, hby, approverOrAdmin]

/-- C2 counterexample: two successive bulk approvals with overlapping id sets.
The first call approves id a at time 1.  The second call (ids a and b, time 2)
returns a modified count of 2, although only one of its ids was previously
unapproved: the $set writes a fresh approvedAt, so the already-approved
document is modified again.  This refutes the claim that the second count
reflects only previously-unapproved ids. -/
theorem C2_counterexample :
    bulkCount (svcBulkApprove c2st0 ["a"] none 1) = 1 ∧
    bulkCount (svcBulkApprove c2st1 ["a", "b"] none 2) = 2 ∧
    (c2st1.store.filter (fun r => ["a", "b"].contains r.mongoId &&
      !r.isApprovedForPublic)).length = 1 ∧
    (2 : Nat) ≠ 1 := by
  decide

/-- C2 amended: a bulkApprove call with a nonempty id list never errors
(unmatched ids are silently skipped) and its modified count counts the matched
documents whose stored isApprovedForPublic, approvedBy or approvedAt differ
from the values being written; since approvedAt is the call time, overlapping
ids of a previous call are counted again whenever the timestamp or approver
differs, and are not counted when the write is a no-op. -/
theorem C2_amended_modified_count (st : AppState) (reviewIds : List String)
    (ab : Option String) (now : Nat) (h : reviewIds ≠ []) :
    svcBulkApprove st reviewIds ab now =
      .ok ({ store := (repoBulkApprove st.store reviewIds (ab.getD "admin") now).1,
             cache := invalidateCache st.cache },
        (st.store.filter (fun r => reviewIds.contains r.mongoId &&
          !(r.isApprovedForPublic == true &&
            r.approvedBy == some (ab.getD "admin") &&
            r.approvedAt == some now))).length) := by
  unfold svcBulkApprove repoBulkApprove
  rw [if_neg h]
  simp only [bulkApproveSet_bne_eq]

theorem C2_amended_witness :
    bulkCount (svcBulkApprove c2st0 ["a", "b"] none 1) = 2 := by
  rw [C2_amended_modified_count c2st0 ["a", "b"] none 1 (by decide)]
  decide

/-- C3 counterexample: approving through the generic update without an
approver name leaves approvedBy absent; the claim says it becomes admin. -/
theorem C3_counterexample :
    (c3stAfter.store.map (fun r => (r.isApprovedForPublic, r.approvedBy, r.approvedAt))) =
      [(true, none, some 5)] ∧
    some "admin" ≠ (none : Option String) := by
  decide

/-- C3 amended: an approval transition through approveReview sets approvedAt to
the current time and approvedBy to the supplied name, falling back to admin
when the name is missing or empty; through the generic update it sets
approvedAt to the current time but approvedBy only when a name is supplied,
leaving it unchanged otherwise; an unapproval clears both approvedAt and
approvedBy to absent. -/
theorem C3_amended_approval_metadata (st : AppState) (id : String)
    (dto : UpdateReviewDto) (now : Nat) (r : Review) (ab : Option String)
    (hfind : st.store.find? (fun x => x.mongoId == id) = some r) :
    (svcUpdate st id dto now).isOk = true ∧
    (dto.isApprovedForPublic = some false →
      ∃ x, (updState (svcUpdate st id dto now)).store.find?
          (fun y => y.mongoId == id) = some x ∧
        x.isApprovedForPublic = false ∧ x.approvedAt = none ∧ x.approvedBy = none) ∧
    (dto.isApprovedForPublic = some true → r.isApprovedForPublic = false →
      ∃ x, (updState (svcUpdate st id dto now)).store.find?
          (fun y => y.mongoId == id) = some x ∧
        x.isApprovedForPublic = true ∧ x.approvedAt = some now ∧
        x.approvedBy = (match dto.approvedBy with
                        | some name => some name
                        | none => r.approvedBy)) ∧
    (isNumericString id = false →
      ∃ st2 r2, svcApproveReview st id ab now = .ok (st2, r2) ∧
        r2.isApprovedForPublic = true ∧ r2.approvedAt = some now ∧
        r2.approvedBy = some (approverOrAdmin ab)) := by
  have hpr := List.find?_some hfind
  refine ⟨?_, ?_, ?_, ?_⟩
  · simp only [svcUpdate, hfind]
    rfl
  · intro hfalse
    simp only [svcUpdate, hfind, updState, repoUpdate, hfalse]
    simp only [Option.some.injEq, Bool.false_eq_true, false_and, if_false, if_true,
      reduceIte]
    exact ⟨_, find?_replaceFirstBy _ _ _ r hfind (by simpa [applySet] using hpr),
      by simp [applySet], by simp [applySet], by simp [applySet]⟩
  · intro htrue hr
    simp only [svcUpdate, hfind, updState, repoUpdate, htrue, hr]
    simp only [Option.some.injEq, Bool.true_eq_false, and_true, and_false, if_true,
      if_false, reduceIte]
    refine ⟨_, find?_replaceFirstBy _ _ _ r hfind (by simpa [applySet] using hpr),
      by simp [applySet], by simp [applySet], ?_⟩
    rcases dto.approvedBy <;> simp [applySet]
  · intro hnum
    refine ⟨⟨repoUpdate st.store r.mongoId
        ⟨some true, some (some (approverOrAdmin ab)), some (some now), none, none, none⟩,
        invalidateCache st.cache⟩,
      applySet r
        ⟨some true, some (some (approverOrAdmin ab)), some (some now), none, none, none⟩,
      ?_, ?_, ?_, ?_⟩
    · simp [svcApproveReview, hnum, hfind]
    all_goals simp [applySet]

theorem C3_witness :
    (((c3stAfterBob.store.find? (fun y => y.mongoId == "a")).map
      (fun x => (x.isApprovedForPublic, x.approvedAt, x.approvedBy))) =
      some (true, some 5, some "bob")) ∧
    (svcApproveReview c3st0 "a" (some "") 5).toOption.map
      (fun p => p.2.approvedBy) = some (some "admin") := by
  obtain ⟨hok, hunapp, happ, happrove⟩ :=
    C3_amended_approval_metadata c3st0 "a" c3dtoApproveBob 5 baseReview (some "")
      (by decide)
  constructor
  · obtain ⟨x, hx, h1, h2, h3⟩ := happ rfl (by decide)
    show ((updState (svcUpdate c3st0 "a" c3dtoApproveBob 5)).store.find?
        (fun y => y.mongoId == "a")).map
        (fun x => (x.isApprovedForPublic, x.approvedAt, x.approvedBy)) = _
    rw [hx]
    simp [h1, h2, h3, c3dtoApproveBob]
  · obtain ⟨st2, r2, heq, h1, h2, h3⟩ := happrove (by decide)
    rw [heq]
    simp [Except.toOption, h3, approverOrAdmin]

/-- C5 counterexample: a trend read populates the parameterized trend key; a
subsequent approval (a mutating operation) completes, yet that key survives,
because invalidateCache deletes only literal keys (the star keys are ordinary
literals, not patterns).  This refutes the claim that the trend keys are all
removed by every mutation. -/
theorem C5_counterexample :
    isOkReview (svcApproveReview c5st1 "a" none 7) = true ∧
    trendCacheKey 30 ∈ cacheKeys c5st2.cache := by
  decide

/-- C5 amended: every mutating operation (create, update, approve, bulkApprove,
sync, delete) leaves the cache equal to invalidateCache of the previous cache,
and invalidateCache removes exactly the five literal keys (the three named keys
and the two star literals); parameterized approved-reviews and trend entries
are untouched and expire only by TTL. -/
theorem C5_amended_cache_invalidation (st : AppState) :
    (∀ dto newId st' r, svcCreate st dto newId = .ok (st', r) →
      st'.cache = invalidateCache st.cache) ∧
    (∀ id dto now st', svcUpdate st id dto now = .ok st' →
      st'.cache = invalidateCache st.cache) ∧
    (∀ id ab now st' r, svcApproveReview st id ab now = .ok (st', r) →
      st'.cache = invalidateCache st.cache) ∧
    (∀ ids ab now st' n, svcBulkApprove st ids ab now = .ok (st', n) →
      st'.cache = invalidateCache st.cache) ∧
    (∀ nrs st' cnt, svcSyncReviews st nrs = .ok (st', cnt) →
      st'.cache = invalidateCache st.cache) ∧
    (∀ id st' r, svcRemove st id = .ok (st', r) →
      st'.cache = invalidateCache st.cache) ∧
    (∀ c k, k ∈ cacheKeys (invalidateCache c) ↔
      (k ∈ cacheKeys c ∧ k ∉ invalidatedKeys)) := by
  refine ⟨?_, ?_, ?_, ?_, ?_, ?_, mem_cacheKeys_invalidateCache⟩
  · intro dto newId st' r h
    unfold svcCreate at h
    split at h
    · cases h
    · cases h; rfl
  · intro id dto now st' h
    unfold svcUpdate at h
    split at h
    · cases h
    · cases h; rfl
  · intro id ab now st' r h
    simp only [svcApproveReview] at h
    split at h
    · split at h <;> cases h
    · cases h; rfl
  · intro ids ab now st' n h
    unfold svcBulkApprove at h
    split at h
    · cases h
    · cases h; rfl
  · intro nrs st' cnt h
    unfold svcSyncReviews at h
    split at h
    · cases h
    · cases h; rfl
  · intro id st' r h
    unfold svcRemove at h
    split at h
    · cases h
    · cases h; rfl

theorem C5_witness :
    svcRemove c5remSt "a" = .ok (c5remAfter, baseReview) ∧
    c5remAfter.cache = invalidateCache c5remSt.cache ∧
    (trendCacheKey 30 ∈ cacheKeys (invalidateCache c5remSt.cache) ↔
      (trendCacheKey 30 ∈ cacheKeys c5remSt.cache ∧
        trendCacheKey 30 ∉ invalidatedKeys)) := by
  refine ⟨rfl, ?_, ?_⟩
  · exact (C5_amended_cache_invalidation c5remSt).2.2.2.2.2.1 "a" c5remAfter
      baseReview rfl
  · exact (C5_amended_cache_invalidation c5remSt).2.2.2.2.2.2 c5remSt.cache
      (trendCacheKey 30)

/-- C8 counterexample: one listing whose three stored reviews average 2549/300.
The produced entry reports avgRating 8.5 (the rounded average) with performance
good (the tier is computed on the unrounded average, which is below 8.5).  This
refutes the claim that an entry is excellent exactly when its avgRating is at
least 8.5. -/
theorem C8_counterexample :
    (getPropertyBreakdown c8store {}).map (fun e => (e.avgRating, e.performance)) =
      [(8.5, "good")] ∧
    ((8.5 : ℚ) ≤ 8.5) := by
  decide

/-- C8 amended: the property list is sorted by the reported (rounded) avgRating
descending with ties by totalReviews descending, and each entry reports
avgRating as the group average rounded to 2 decimals while its performance tier
is thresholded (boundary-inclusive) on the unrounded group average, so the two
can disagree when rounding crosses a boundary. -/
theorem C8_amended_tier_and_sort (store : List Review) (f : AnalyticsFilterDto) :
    List.Sorted propertyGe (getPropertyBreakdown store f) ∧
    ∀ kg ∈ groupsBy (fun r => (r.listingId, r.listingName))
        (store.filter (matchesAnalyticsFilter f)),
      (mkPropertyEntry kg.1 kg.2).avgRating =
        mongoRound2 (listAvg (kg.2.map (·.averageCategoryRating))) ∧
      (mkPropertyEntry kg.1 kg.2).performance =
        (if 8.5 ≤ listAvg (kg.2.map (·.averageCategoryRating)) then "excellent"
         else if 7 ≤ listAvg (kg.2.map (·.averageCategoryRating)) then "good"
         else if 5 ≤ listAvg (kg.2.map (·.averageCategoryRating)) then "fair"
         else "needs_improvement") ∧
      mkPropertyEntry kg.1 kg.2 ∈ getPropertyBreakdown store f := by
  constructor
  · exact List.sorted_insertionSort propertyGe _
  · intro kg hkg
    refine ⟨rfl, rfl, ?_⟩
    unfold getPropertyBreakdown
    rw [List.mem_insertionSort]
    exact List.mem_map.mpr ⟨kg, hkg, rfl⟩

theorem C8_witness :
    (mkPropertyEntry c8group.1 c8group.2).performance = "good" ∧
    (mkPropertyEntry c8group.1 c8group.2).avgRating = 8.5 ∧
    mkPropertyEntry c8group.1 c8group.2 ∈ getPropertyBreakdown c8store {} := by
  obtain ⟨h1, h2, h3⟩ := (C8_amended_tier_and_sort c8store {}).2 c8group (by decide)
  refine ⟨?_, ?_, h3⟩
  · rw [h2]
    decide
  · rw [h1]
    decide

/-- C10: every aggregation group that feeds an approvalRate division holds at
least one document (channel breakdown, property breakdown, top properties of
the statistics report), and the overview aggregate short-circuits to its
constant fallback when no document matches, so no approvalRate division ever
has a zero divisor. -/
theorem C10_no_division_by_zero (store : List Review) (f : AnalyticsFilterDto) :
    ((getChannelBreakdown store f).all (fun e => decide (1 ≤ e.count)) = true) ∧
    ((getPropertyBreakdown store f).all (fun e => decide (1 ≤ e.totalReviews)) = true) ∧
    ((getStatisticsModel store).topProperties.all
      (fun e => decide (1 ≤ e.reviewCount)) = true) ∧
    (store.filter (matchesDateFilter f) = [] →
      getOverviewStats store f = fallbackOverview) ∧
    (store.filter (matchesDateFilter f) ≠ [] →
      1 ≤ (getOverviewStats store f).totalReviews) := by
  refine ⟨?_, ?_, ?_, ?_, ?_⟩
  · rw [List.all_eq_true]
    intro e he
    rw [decide_eq_true_iff]
    unfold getChannelBreakdown at he
    rw [List.mem_insertionSort] at he
    obtain ⟨kg, hkg, rfl⟩ := List.mem_map.mp he
    exact groupsBy_nonempty _ _ _ hkg
  · rw [List.all_eq_true]
    intro e he
    rw [decide_eq_true_iff]
    unfold getPropertyBreakdown at he
    rw [List.mem_insertionSort] at he
    obtain ⟨kg, hkg, rfl⟩ := List.mem_map.mp he
    exact groupsBy_nonempty _ _ _ hkg
  · rw [List.all_eq_true]
    intro e he
    rw [decide_eq_true_iff]
    unfold getStatisticsModel at he
    obtain ⟨kg, hkg, rfl⟩ := List.mem_map.mp he
    have hkg2 := List.take_subset 10 _ hkg
    rw [List.mem_insertionSort] at hkg2
    exact groupsBy_nonempty _ _ _ hkg2
  · intro h
    simp [getOverviewStats, h]
  · intro h
    simp only [getOverviewStats]
    rw [if_neg (by simp [List.isEmpty_iff, h])]
    exact List.length_pos.mpr h

theorem C10_witness :
    1 ≤ (getOverviewStats c10store {}).totalReviews ∧
    (getChannelBreakdown c10store {}).all (fun e => decide (1 ≤ e.count)) = true := by
  exact ⟨(C10_no_division_by_zero c10store {}).2.2.2.2 (by decide),
    (C10_no_division_by_zero c10store {}).1⟩
